import Mathlib

set_option exponentiation.threshold 8000

/-!
# Product data-access object over a document collection

A shallow embedding of `src/models/Product.js`: the class `Product` with its four
read operations `findById`, `findByIds`, `findByBrand` and `serialize`.

Modelling decisions.

* A collection is the list of its documents in natural (insertion) order.  The
  driver calls the class makes (`findOne`, `find`, `sort`, `toArray`) are given
  their documented meaning on that list.
* A document has the shape the specification's data model gives a product:
  `_id`, `name`, `modelNum`, `brand`, `salePrice`, optional `msrp`,
  `relatedProducts`.
* A number is an IEEE-754 double, as in JavaScript and in the database.  A
  finite double is a whole number of units of `2 ^ -1074`, the least positive
  double, so the arithmetic of the embedding is integer arithmetic; every
  operation computes the exact result and rounds it to the nearest double, ties
  to even, overflowing to an infinity.  The two zeros are one value: `serialize`
  returns absolute values only, on which the sign of a zero has no effect.
* A promise is its outcome: a rejected promise is `Except.error`.
-/

namespace MongoDbTesting

/-! ## JavaScript numbers -/

/-- A JavaScript number, an IEEE-754 double.  The finite double `fin n` has the
value `n · 2 ^ -1074`. -/
inductive JSNumber where
  | fin (n : ℤ)
  | posInf
  | negInf
  | nan
  deriving DecidableEq

namespace JSNumber

/-- The number one, in units of `2 ^ -1074`. -/
def unit : Nat := 2 ^ 1074

/-- The least magnitude, in units, that is too large for a finite double:
`2 ^ 1024`. -/
def overflow : Nat := 2 ^ 2098

/-- The whole number nearest to `p / d`, the even one of two equally near. -/
def rne (p d : Nat) : Nat :=
  if 2 * (p % d) < d then p / d
  else if d < 2 * (p % d) then p / d + 1
  else if p / d % 2 = 0 then p / d
  else p / d + 1

/-- Bitwise search for the largest `k` with `q * 2 ^ (52 + k) ≤ p`: each step
`b` is added to `k` when the bound still holds. -/
def spacingSearch (p q : Nat) : List Nat → Nat → Nat
  | [], k => k
  | b :: bs, k =>
      if q * 2 ^ (52 + k + b) ≤ p then spacingSearch p q bs (k + b)
      else spacingSearch p q bs k

/-- The exponent of the spacing of the doubles around `p / q` units: `0` below
`2 ^ 53` units, else `k` with `2 ^ (52 + k) ≤ p / q < 2 ^ (53 + k)`. -/
def spacing (p q : Nat) : Nat :=
  spacingSearch p q [2048, 1024, 512, 256, 128, 64, 32, 16, 8, 4, 2, 1] 0

/-- The magnitude `p / q` units rounded to 53 significant bits, to nearest, ties
to even, the exponent not yet bounded. -/
def roundMag (p q : Nat) : Nat :=
  rne p (q * 2 ^ spacing p q) * 2 ^ spacing p q

/-- The infinity of a sign: `-Infinity` when `neg`, else `Infinity`. -/
def signedInf (neg : Bool) : JSNumber :=
  if neg then negInf else posInf

/-- The double nearest to the exact value of sign `neg` and magnitude `p / q`
units; a rounded magnitude of `2 ^ 1024` or more is an infinity. -/
def round (neg : Bool) (p q : Nat) : JSNumber :=
  if overflow ≤ roundMag p q then signedInf neg
  else fin (if neg then -(roundMag p q : ℤ) else (roundMag p q : ℤ))

/-- The double of a whole number `k` of magnitude at most `2 ^ 53`, such as the
literals `0` and `100` of the source. -/
def ofInt (k : ℤ) : JSNumber :=
  fin (k * unit)

/-- The double a decimal literal of value `num / den` denotes, such as
`lit 21999 100` for `219.99`. -/
def lit (num den : Nat) : JSNumber :=
  round false (num * unit) den

/-- JavaScript `a - b`. -/
def sub : JSNumber → JSNumber → JSNumber
  | nan, _ => nan
  | _, nan => nan
  | fin a, fin b => round (decide (a - b < 0)) (a - b).natAbs 1
  | fin _, posInf => negInf
  | fin _, negInf => posInf
  | posInf, posInf => nan
  | posInf, _ => posInf
  | negInf, negInf => nan
  | negInf, _ => negInf

/-- JavaScript `a / b`.  A non-zero finite number over zero is infinite, zero over
zero is `NaN`. -/
def div : JSNumber → JSNumber → JSNumber
  | nan, _ => nan
  | _, nan => nan
  | fin a, fin b =>
      if b = 0 then (if a = 0 then nan else signedInf (decide (a < 0)))
      else round (decide (a < 0) != decide (b < 0)) (a.natAbs * unit) b.natAbs
  | fin _, posInf => fin 0
  | fin _, negInf => fin 0
  | posInf, fin b => signedInf (decide (b < 0))
  | negInf, fin b => signedInf (decide (0 ≤ b))
  | posInf, posInf => nan
  | posInf, negInf => nan
  | negInf, posInf => nan
  | negInf, negInf => nan

/-- JavaScript `a * b`.  Zero times an infinity is `NaN`. -/
def mul : JSNumber → JSNumber → JSNumber
  | nan, _ => nan
  | _, nan => nan
  | fin a, fin b => round (decide (a < 0) != decide (b < 0)) (a.natAbs * b.natAbs) unit
  | fin a, posInf => if a = 0 then nan else signedInf (decide (a < 0))
  | fin a, negInf => if a = 0 then nan else signedInf (decide (0 < a))
  | posInf, fin b => if b = 0 then nan else signedInf (decide (b < 0))
  | negInf, fin b => if b = 0 then nan else signedInf (decide (0 < b))
  | posInf, posInf => posInf
  | posInf, negInf => negInf
  | negInf, posInf => negInf
  | negInf, negInf => posInf

/-- JavaScript `Math.abs`. -/
def abs : JSNumber → JSNumber
  | fin a => fin (a.natAbs : ℤ)
  | posInf => posInf
  | negInf => posInf
  | nan => nan

/-- JavaScript `Math.ceil`: the least whole number not below the argument, which
is a double whenever the argument is. -/
def ceil : JSNumber → JSNumber
  | fin a =>
      if 0 ≤ a then fin (((a.natAbs + (unit - 1)) / unit * unit : Nat) : ℤ)
      else fin (-((a.natAbs / unit * unit : Nat) : ℤ))
  | posInf => posInf
  | negInf => negInf
  | nan => nan

/-- JavaScript `a < b` on numbers: false as soon as an operand is `NaN`. -/
def lt : JSNumber → JSNumber → Bool
  | nan, _ => false
  | _, nan => false
  | fin a, fin b => decide (a < b)
  | fin _, posInf => true
  | fin _, negInf => false
  | posInf, _ => false
  | negInf, negInf => false
  | negInf, _ => true

/-- JavaScript `a <= b` on numbers (and `b >= a`): false as soon as an operand is
`NaN`. -/
def le : JSNumber → JSNumber → Bool
  | nan, _ => false
  | _, nan => false
  | fin a, fin b => decide (a ≤ b)
  | fin _, posInf => true
  | fin _, negInf => false
  | posInf, posInf => true
  | posInf, _ => false
  | negInf, _ => true

/-- Whether the number is finite. -/
def isFinite : JSNumber → Bool
  | fin _ => true
  | _ => false

/-- Whether the value is a double: a finite one has a magnitude below
`2 ^ 1024` that is a multiple of the spacing at that magnitude. -/
def isDouble : JSNumber → Bool
  | fin n => decide (n.natAbs < overflow) && decide (n.natAbs % 2 ^ spacing n.natAbs 1 = 0)
  | _ => true

/-- A magnitude of at most 53 significant bits: `M * 2 ^ j` with `M < 2 ^ 53`. -/
def Rep (c : Nat) : Prop :=
  ∃ M j : Nat, M < 2 ^ 53 ∧ c = M * 2 ^ j

/-- Each step of a search list is at most one more than the later steps together,
as in `2048, 1024, ..., 2, 1`. -/
def Halving : List Nat → Prop
  | [] => True
  | b :: bs => b ≤ bs.sum + 1 ∧ Halving bs

/-- The place of a number in the order the database sorts numbers by: `NaN`, then
`-Infinity`, then the finite numbers by value, then `Infinity`. -/
def sortBefore : JSNumber → JSNumber → Bool
  | nan, nan => false
  | nan, _ => true
  | _, nan => false
  | a, b => lt a b

end JSNumber

/-- A number a document holds: a double. -/
abbrev Double := { x : JSNumber // x.isDouble = true }

/-- JavaScript `ToNumber` of a field holding a stored number or `undefined`
(`none`): `undefined` converts to `NaN`. -/
def toNumber : Option Double → JSNumber
  | some x => x.val
  | none => JSNumber.nan

/-! ## Identifiers and documents -/

/-- A driver `ObjectID`: its bytes. -/
structure ObjectID where
  bytes : List Nat
  deriving DecidableEq

/-- The sixteen hexadecimal digits, lower case. -/
def hexDigit (n : Nat) : Char :=
  "0123456789abcdef".toList.getD (n % 16) '0'

/-- The two hexadecimal digits of one byte. -/
def hexByte (b : Nat) : List Char :=
  [hexDigit (b / 16), hexDigit b]

/-- `ObjectID.prototype.toString()`: the hexadecimal string of the bytes. -/
def ObjectID.toString (o : ObjectID) : String :=
  String.mk (o.bytes.foldr (fun b acc => hexByte b ++ acc) [])

/-- A stored product document. -/
structure ProductDoc where
  _id : ObjectID
  name : String
  modelNum : String
  brand : String
  salePrice : Double
  msrp : Option Double
  relatedProducts : List ObjectID
  deriving DecidableEq

/-! ## The driver's collection interface -/

/-- A collection: its documents in natural order. -/
abbrev Collection := List ProductDoc

/-- The query filters the class builds. -/
inductive Filter where
  /-- The filter `{ _id: id }`. -/
  | idEq (id : ObjectID)
  /-- The filter `{ _id: { $in: ids } }`. -/
  | idIn (ids : List ObjectID)
  /-- The filter `{ brand: brandName }`. -/
  | brandEq (brandName : String)

/-- Whether a document satisfies a filter. -/
def Filter.holds : Filter → ProductDoc → Bool
  | Filter.idEq id, d => decide (d._id = id)
  | Filter.idIn ids, d => decide (d._id ∈ ids)
  | Filter.brandEq b, d => decide (d.brand = b)

/-- Direction of one sort key: `1` or `-1`. -/
inductive SortDirection where
  | asc
  | desc
  deriving DecidableEq

/-- A sort specification `{ field: direction, ... }` in key order; `{}` is `[]`. -/
abbrev MongoSort := List (String × SortDirection)

/-- The value a document offers for a sort field, in the order the database
compares them: an empty array, then a missing field, then numbers, then strings,
then identifiers. -/
inductive SortKey where
  | emptyArray
  | missing
  | num (x : JSNumber)
  | str (s : String)
  | oid (o : ObjectID)
  deriving DecidableEq

/-- Rank of the kind of a sort key. -/
def SortKey.rank : SortKey → Nat
  | SortKey.emptyArray => 0
  | SortKey.missing => 1
  | SortKey.num _ => 2
  | SortKey.str _ => 3
  | SortKey.oid _ => 4

/-- Three-way comparison of sort keys: by kind, then by value within a kind
(numbers by value, strings and identifiers bytewise). -/
def SortKey.cmp : SortKey → SortKey → Ordering
  | SortKey.num a, SortKey.num b =>
      if a.sortBefore b then .lt else if b.sortBefore a then .gt else .eq
  | SortKey.str a, SortKey.str b => if a < b then .lt else if b < a then .gt else .eq
  | SortKey.oid a, SortKey.oid b =>
      if a.bytes < b.bytes then .lt else if b.bytes < a.bytes then .gt else .eq
  | a, b => compare a.rank b.rank

/-- The least (ascending sort) or greatest (descending sort) identifier of a
non-empty array, which is what the database compares arrays by. -/
def arrayKey (dir : SortDirection) : List ObjectID → SortKey
  | [] => SortKey.emptyArray
  | x :: xs =>
      SortKey.oid (xs.foldl (fun m y =>
        match dir with
        | SortDirection.asc => if y.bytes < m.bytes then y else m
        | SortDirection.desc => if m.bytes < y.bytes then y else m) x)

/-- The sort key of a document for a field name. -/
def sortKey (dir : SortDirection) (field : String) (d : ProductDoc) : SortKey :=
  if field = "_id" then SortKey.oid d._id
  else if field = "name" then SortKey.str d.name
  else if field = "modelNum" then SortKey.str d.modelNum
  else if field = "brand" then SortKey.str d.brand
  else if field = "salePrice" then SortKey.num d.salePrice.val
  else if field = "msrp" then
    (match d.msrp with
     | some m => SortKey.num m.val
     | none => SortKey.missing)
  else if field = "relatedProducts" then arrayKey dir d.relatedProducts
  else SortKey.missing

/-- Whether `a` may stand before `b` under a sort specification: the first key
on which they differ decides, and documents equal on every key keep their
order. -/
def sortLe : MongoSort → ProductDoc → ProductDoc → Bool
  | [], _, _ => true
  | (field, dir) :: rest, a, b =>
      match SortKey.cmp (sortKey dir field a) (sortKey dir field b), dir with
      | .eq, _ => sortLe rest a b
      | .lt, SortDirection.asc => true
      | .gt, SortDirection.asc => false
      | .lt, SortDirection.desc => false
      | .gt, SortDirection.desc => true

/-- Stable insertion of a document into a list sorted by `le`. -/
def insertSorted (le : ProductDoc → ProductDoc → Bool) (a : ProductDoc) :
    List ProductDoc → List ProductDoc
  | [] => [a]
  | b :: l => if le a b then a :: b :: l else b :: insertSorted le a l

/-- Stable sort of documents by `le`. -/
def sortDocs (le : ProductDoc → ProductDoc → Bool) : List ProductDoc → List ProductDoc
  | [] => []
  | a :: l => insertSorted le a (sortDocs le l)

/-- A cursor: the documents a query selected, in the order they will be read. -/
structure Cursor where
  docs : List ProductDoc

/-- `collection.findOne(filter)`: the first document that satisfies the filter,
or `null` (`none`). -/
def Collection.findOne (c : Collection) (f : Filter) : Option ProductDoc :=
  c.find? f.holds

/-- `collection.find(filter)`: a cursor over the documents that satisfy the
filter, in natural order. -/
def Collection.find (c : Collection) (f : Filter) : Cursor :=
  ⟨c.filter f.holds⟩

/-- `cursor.sort(spec)`. -/
def Cursor.sort (cur : Cursor) (spec : MongoSort) : Cursor :=
  ⟨sortDocs (sortLe spec) cur.docs⟩

/-- `cursor.toArray()`. -/
def Cursor.toArray (cur : Cursor) : List ProductDoc :=
  cur.docs

/-! ## The class `Product` -/

/-- A database handle: its collections by name. -/
structure Db where
  collection : String → Collection

/-- The class `Product`: the fields its constructor sets. -/
structure Product where
  db : Db
  collectionName : String
  collection : Collection

/-- The constructor: `collectionName` is `"products"` and `collection` is that
collection of `db`. -/
def Product.new (db : Db) : Product :=
  { db := db, collectionName := "products", collection := db.collection "products" }

/-- One related product as `serialize` shapes it. -/
structure RelatedView where
  id : String
  title : String
  brandName : String
  deriving DecidableEq

/-- The object `serialize` returns. -/
structure ProductView where
  id : String
  model : String
  sku : String
  title : String
  brandName : String
  price : Double
  listPrice : Option Double
  discount : JSNumber
  discountPercent : JSNumber
  relatedProducts : List RelatedView
  deriving DecidableEq

/-- How a call can fail.  `typeError` is the JavaScript `TypeError` raised by
reading a property of `null`.  `notFound` is the typed NotFound condition of the
specification's error taxonomy, here so that statements can name it. -/
inductive Failure where
  | typeError
  | notFound
  deriving DecidableEq

namespace Product

/-- `findById(productId)`: `collection.findOne({ _id: productId })`. -/
def findById (self : Product) (productId : ObjectID) : Option ProductDoc :=
  self.collection.findOne (Filter.idEq productId)

/-- `findByIds(ids)`: `collection.find({ _id: { $in: ids } }).toArray()`. -/
def findByIds (self : Product) (ids : List ObjectID) : List ProductDoc :=
  (self.collection.find (Filter.idIn ids)).toArray

/-- `findByBrand(brandName, sort = {})`:
`collection.find({ brand: brandName }).sort(sort).toArray()`.  An omitted
`sort` (`none`) takes the default `{}`. -/
def findByBrand (self : Product) (brandName : String) (sort : Option MongoSort) :
    List ProductDoc :=
  ((self.collection.find (Filter.brandEq brandName)).sort (sort.getD [])).toArray

/-- The `discount` expression of `serialize`:
`salePrice < msrp ? Math.abs(salePrice - msrp) : 0`. -/
def discountOf (salePrice msrp : JSNumber) : JSNumber :=
  if JSNumber.lt salePrice msrp then JSNumber.abs (JSNumber.sub salePrice msrp)
  else JSNumber.fin 0

/-- The `discountPercent` expression of `serialize`:
`salePrice < msrp ? Math.ceil(Math.abs(((salePrice - msrp) / msrp) * 100)) : 0`. -/
def discountPercentOf (salePrice msrp : JSNumber) : JSNumber :=
  if JSNumber.lt salePrice msrp then
    JSNumber.ceil (JSNumber.abs
      (JSNumber.mul (JSNumber.div (JSNumber.sub salePrice msrp) msrp) (JSNumber.ofInt 100)))
  else JSNumber.fin 0

/-- The arrow function `serialize` maps over the related documents:
`relatedProduct => ({ id, title, brandName })`. -/
def relatedView (relatedProduct : ProductDoc) : RelatedView :=
  { id := relatedProduct._id.toString
    title := relatedProduct.name
    brandName := relatedProduct.brand }

/-- `serialize(productId)`.  When `findById` resolves to `null`, reading
`product.relatedProducts` throws a `TypeError` and the promise is rejected with
it. -/
def serialize (self : Product) (productId : ObjectID) : Except Failure ProductView :=
  match self.findById productId with
  | none => Except.error Failure.typeError
  | some product =>
      let relatedProducts := self.findByIds product.relatedProducts
      Except.ok
        { id := product._id.toString
          model := product.modelNum
          sku := product.brand ++ "-" ++ product.modelNum
          title := product.name
          brandName := product.brand
          price := product.salePrice
          listPrice := product.msrp
          discount := discountOf product.salePrice.val (toNumber product.msrp)
          discountPercent :=
            discountPercentOf product.salePrice.val (toNumber product.msrp)
          relatedProducts := relatedProducts.map relatedView }

end Product

/-! ## The documents of the test-suite -/

/-- Identifier whose bytes are eleven zeros and `n`. -/
def sampleId (n : Nat) : ObjectID :=
  ⟨List.replicate 11 0 ++ [n]⟩

/-- The first sample product of `createSampleProducts`. -/
def product1 : ProductDoc :=
  { _id := sampleId 1, name := "PLUS Sewing Quilting Machine", modelNum := "B880",
    brand := "Bernina", salePrice := ⟨JSNumber.lit 34999 100, by decide⟩,
    msrp := some ⟨JSNumber.lit 32999 100, by decide⟩, relatedProducts := [] }

/-- The second sample product, without `msrp`. -/
def product2 : ProductDoc :=
  { _id := sampleId 2, name := "Mechanical Sewing Machine with Foot Pedal", modelNum := "10",
    brand := "Alphasew", salePrice := ⟨JSNumber.lit 7999 100, by decide⟩, msrp := none, relatedProducts := [] }

/-- The third sample product, without `msrp`. -/
def product3 : ProductDoc :=
  { _id := sampleId 3, name := "L460 Overlocker", modelNum := "L460",
    brand := "Bernina", salePrice := ⟨JSNumber.lit 18999 100, by decide⟩, msrp := none, relatedProducts := [] }

/-- The fourth sample product, related to the first and the third. -/
def product4 : ProductDoc :=
  { _id := sampleId 4, name := "Sewing & Embroidery Machine", modelNum := "NQ3600D",
    brand := "Brother", salePrice := ⟨JSNumber.lit 21999 100, by decide⟩,
    msrp := some ⟨JSNumber.lit 24999 100, by decide⟩,
    relatedProducts := [sampleId 1, sampleId 3] }

/-- The class over the collection `createSampleProducts` leaves behind. -/
def sampleStore : Product :=
  Product.new ⟨fun name => if name = "products" then [product1, product2, product3, product4] else []⟩

/-- A product priced below a negative `msrp`. -/
def negativeDoc : ProductDoc :=
  { _id := sampleId 7, name := "Refund voucher", modelNum := "RV1", brand := "Bernina",
    salePrice := ⟨JSNumber.ofInt (-3), by decide⟩,
    msrp := some ⟨JSNumber.ofInt (-2), by decide⟩, relatedProducts := [] }

/-- The class over a collection that holds `negativeDoc` only. -/
def negativeStore : Product :=
  Product.new ⟨fun _ => [negativeDoc]⟩

/-- A product at 93 under an msrp of 100: both whole numbers, and the quotient
`-7 / 100` is not a double. -/
def roundingDoc : ProductDoc :=
  { _id := sampleId 8, name := "Walking foot", modelNum := "WF93", brand := "Bernina",
    salePrice := ⟨JSNumber.ofInt 93, by decide⟩, msrp := some ⟨JSNumber.ofInt 100, by decide⟩,
    relatedProducts := [] }

/-- A product at `0.1` under an msrp of `2 ^ 53`: the difference is not a double. -/
def absorbedDoc : ProductDoc :=
  { _id := sampleId 10, name := "Bobbin", modelNum := "BB1", brand := "Bernina",
    salePrice := ⟨JSNumber.lit 1 10, by decide⟩,
    msrp := some ⟨JSNumber.ofInt 9007199254740992, by decide⟩, relatedProducts := [] }

/-- A product at 5 whose stored msrp is `Infinity`. -/
def infiniteDoc : ProductDoc :=
  { _id := sampleId 11, name := "Presser foot", modelNum := "PF5", brand := "Bernina",
    salePrice := ⟨JSNumber.ofInt 5, by decide⟩, msrp := some ⟨JSNumber.posInf, by decide⟩,
    relatedProducts := [] }

/-- The class over a collection of products whose discount arithmetic leaves the
exact values. -/
def roundingStore : Product :=
  Product.new ⟨fun _ => [roundingDoc, absorbedDoc, infiniteDoc]⟩

/-- The store invariant of the database: no two documents of a collection have
the same `_id`. -/
def UniqueIds (c : Collection) : Prop :=
  (c.map ProductDoc._id).Nodup

instance (c : Collection) : Decidable (UniqueIds c) :=
  inferInstanceAs (Decidable (c.map ProductDoc._id).Nodup)

/-! ## Lemmas on rounding -/

open JSNumber

theorem rne_le (p d n : Nat) (hd : 0 < d) (h : p ≤ n * d) : rne p d ≤ n := by
  have hdm : d * (p / d) + p % d = p := Nat.div_add_mod p d
  have hr : p % d < d := Nat.mod_lt p hd
  have ht : p / d ≤ n := by
    apply Nat.div_le_of_le_mul
    rw [Nat.mul_comm]; exact h
  rcases Nat.lt_or_ge (p / d) n with hlt | hge
  · unfold rne
    split_ifs <;> omega
  · have heq : p / d = n := le_antisymm ht hge
    have hr0 : p % d = 0 := by
      rw [heq, Nat.mul_comm] at hdm
      omega
    unfold rne
    rw [hr0, heq]
    simp [hd]

theorem le_rne (p d n : Nat) (hd : 0 < d) (h : n * d ≤ p) : n ≤ rne p d := by
  have ht : n ≤ p / d := (Nat.le_div_iff_mul_le hd).mpr h
  unfold rne
  split_ifs <;> omega

theorem spacingSearch_lower (p q : Nat) (bs : List Nat) (k : Nat)
    (h : k = 0 ∨ q * 2 ^ (52 + k) ≤ p) :
    spacingSearch p q bs k = 0 ∨ q * 2 ^ (52 + spacingSearch p q bs k) ≤ p := by
  induction bs generalizing k with
  | nil => simpa [spacingSearch] using h
  | cons b bs ih =>
    unfold spacingSearch
    split_ifs with hc
    · exact ih (k + b) (Or.inr (by rw [← Nat.add_assoc]; exact hc))
    · exact ih k h

theorem spacingSearch_upper (p q : Nat) (bs : List Nat) (k : Nat) (hbs : Halving bs)
    (h : p < q * 2 ^ (52 + k + bs.sum + 1)) :
    p < q * 2 ^ (53 + spacingSearch p q bs k) := by
  induction bs generalizing k with
  | nil =>
    simp only [spacingSearch]
    have : 52 + k + ([] : List Nat).sum + 1 = 53 + k := by simp; omega
    rwa [this] at h
  | cons b bs ih =>
    unfold spacingSearch
    obtain ⟨hb, hrest⟩ := hbs
    split_ifs with hc
    · apply ih (k + b) hrest
      have : 52 + (k + b) + bs.sum + 1 = 52 + k + (b :: bs).sum + 1 := by
        simp; omega
      rwa [this]
    · apply ih k hrest
      have hc' : p < q * 2 ^ (52 + k + b) := Nat.lt_of_not_le hc
      refine lt_of_lt_of_le hc' (Nat.mul_le_mul_left q (Nat.pow_le_pow_right (by norm_num) ?_))
      omega

theorem spacing_lower (p q : Nat) (hk : 1 ≤ spacing p q) :
    q * 2 ^ (52 + spacing p q) ≤ p := by
  rcases spacingSearch_lower p q [2048, 1024, 512, 256, 128, 64, 32, 16, 8, 4, 2, 1] 0
    (Or.inl rfl) with h | h
  · unfold spacing at hk; omega
  · exact h

theorem spacing_upper (p q : Nat) (h : p < q * 2 ^ 4148) :
    p < q * 2 ^ (53 + spacing p q) := by
  apply spacingSearch_upper
  · simp [Halving]
  · simpa using h

theorem roundMag_le (p q c : Nat) (hq : 0 < q) (hc : Rep c) (h : p ≤ c * q) :
    roundMag p q ≤ c := by
  obtain ⟨M, j, hM, rfl⟩ := hc
  unfold roundMag
  rcases Nat.lt_or_ge j (spacing p q) with hjk | hjk
  · exfalso
    have h1 := spacing_lower p q (by omega)
    have h2 : M * 2 ^ j * q < 2 ^ 53 * 2 ^ j * q :=
      Nat.mul_lt_mul_of_pos_right (Nat.mul_lt_mul_of_pos_right hM (by positivity)) hq
    have h3 : 2 ^ 53 * 2 ^ j * q ≤ q * 2 ^ (52 + spacing p q) := by
      rw [← pow_add, Nat.mul_comm]
      exact Nat.mul_le_mul_left q (Nat.pow_le_pow_right (by norm_num) (by omega))
    omega
  · obtain ⟨e, rfl⟩ := Nat.exists_eq_add_of_le hjk
    have hp : p ≤ M * 2 ^ e * (q * 2 ^ spacing p q) := by
      calc p ≤ M * 2 ^ (spacing p q + e) * q := h
        _ = M * 2 ^ e * (q * 2 ^ spacing p q) := by rw [pow_add]; ring
    have := rne_le p (q * 2 ^ spacing p q) (M * 2 ^ e) (by positivity) hp
    calc rne p (q * 2 ^ spacing p q) * 2 ^ spacing p q
        ≤ M * 2 ^ e * 2 ^ spacing p q := Nat.mul_le_mul_right _ this
      _ = M * 2 ^ (spacing p q + e) := by rw [pow_add]; ring

theorem le_roundMag (p q c : Nat) (hq : 0 < q) (hc : Rep c) (h : c * q ≤ p) :
    c ≤ roundMag p q := by
  obtain ⟨M, j, hM, rfl⟩ := hc
  unfold roundMag
  rcases Nat.lt_or_ge j (spacing p q) with hjk | hjk
  · have h1 := spacing_lower p q (by omega)
    have h2 : 2 ^ 52 * (q * 2 ^ spacing p q) ≤ p := by
      calc 2 ^ 52 * (q * 2 ^ spacing p q) = q * 2 ^ (52 + spacing p q) := by
            rw [pow_add]; ring
        _ ≤ p := h1
    have h3 := le_rne p (q * 2 ^ spacing p q) (2 ^ 52) (by positivity) h2
    calc M * 2 ^ j ≤ 2 ^ 53 * 2 ^ j := Nat.mul_le_mul_right _ (le_of_lt hM)
      _ = 2 ^ (53 + j) := by rw [pow_add]
      _ ≤ 2 ^ (52 + spacing p q) := Nat.pow_le_pow_right (by norm_num) (by omega)
      _ = 2 ^ 52 * 2 ^ spacing p q := by rw [pow_add]
      _ ≤ rne p (q * 2 ^ spacing p q) * 2 ^ spacing p q := Nat.mul_le_mul_right _ h3
  · obtain ⟨e, rfl⟩ := Nat.exists_eq_add_of_le hjk
    have hp : M * 2 ^ e * (q * 2 ^ spacing p q) ≤ p := by
      calc M * 2 ^ e * (q * 2 ^ spacing p q) = M * 2 ^ (spacing p q + e) * q := by
            rw [pow_add]; ring
        _ ≤ p := h
    have := le_rne p (q * 2 ^ spacing p q) (M * 2 ^ e) (by positivity) hp
    calc M * 2 ^ (spacing p q + e) = M * 2 ^ e * 2 ^ spacing p q := by rw [pow_add]; ring
      _ ≤ rne p (q * 2 ^ spacing p q) * 2 ^ spacing p q := Nat.mul_le_mul_right _ this

theorem roundMag_rep (c : Nat) (hc : Rep c) : roundMag c 1 = c :=
  le_antisymm (roundMag_le c 1 c Nat.one_pos hc (by simp))
    (le_roundMag c 1 c Nat.one_pos hc (by simp))

theorem rep_one : Rep 1 := ⟨1, 0, by norm_num, by norm_num⟩

theorem rep_pow (j : Nat) : Rep (2 ^ j) := ⟨1, j, by norm_num, by simp⟩

theorem rep_gap (a b : Nat) (ha : Rep a) (hb : Rep b) (hlt : b < a) :
    a ≤ (a - b) * 2 ^ 54 := by
  rcases Nat.lt_or_ge a (2 * b) with h2 | h2
  · obtain ⟨M, i, hM, rfl⟩ := ha
    obtain ⟨S, j, hS, rfl⟩ := hb
    rcases Nat.lt_or_ge j i with hji | hji
    · obtain ⟨e, rfl⟩ := Nat.exists_eq_add_of_le (le_of_lt hji)
      have hdiff : M * 2 ^ (j + e) - S * 2 ^ j = (M * 2 ^ e - S) * 2 ^ j := by
        rw [Nat.sub_mul, pow_add]; ring_nf
      have hpos : 0 < M * 2 ^ e - S := by
        by_contra hcon
        have : M * 2 ^ e - S = 0 := by omega
        rw [this, Nat.zero_mul] at hdiff
        omega
      have h1 : 2 ^ j ≤ M * 2 ^ (j + e) - S * 2 ^ j := by
        rw [hdiff]; exact Nat.le_mul_of_pos_left _ hpos
      have h3 : S * 2 ^ j < 2 ^ 53 * 2 ^ j := Nat.mul_lt_mul_of_pos_right hS (by positivity)
      have h4 : (M * 2 ^ (j + e) - S * 2 ^ j) * 2 ^ 54 ≥ 2 ^ j * 2 ^ 54 :=
        Nat.mul_le_mul_right _ h1
      have h5 : (2 : Nat) ^ j * 2 ^ 54 = 2 * (2 ^ 53 * 2 ^ j) := by ring
      omega
    · obtain ⟨e, rfl⟩ := Nat.exists_eq_add_of_le hji
      have hdiff : M * 2 ^ i - S * 2 ^ (i + e) = (M - S * 2 ^ e) * 2 ^ i := by
        rw [Nat.sub_mul, pow_add]; ring_nf
      have hpos : 0 < M - S * 2 ^ e := by
        by_contra hcon
        have : M - S * 2 ^ e = 0 := by omega
        rw [this, Nat.zero_mul] at hdiff
        omega
      have h1 : 2 ^ i ≤ M * 2 ^ i - S * 2 ^ (i + e) := by
        rw [hdiff]; exact Nat.le_mul_of_pos_left _ hpos
      have h3 : M * 2 ^ i < 2 ^ 53 * 2 ^ i := Nat.mul_lt_mul_of_pos_right hM (by positivity)
      have h4 : (M * 2 ^ i - S * 2 ^ (i + e)) * 2 ^ 54 ≥ 2 ^ i * 2 ^ 54 :=
        Nat.mul_le_mul_right _ h1
      have h5 : (2 : Nat) ^ i * 2 ^ 54 = 2 * (2 ^ 53 * 2 ^ i) := by ring
      omega
  · have : a ≤ (a - b) * 2 := by omega
    calc a ≤ (a - b) * 2 := this
      _ ≤ (a - b) * 2 ^ 54 := Nat.mul_le_mul_left _ (by norm_num)

theorem unit_pos : 0 < unit := by
  unfold unit; positivity

theorem unit_lt_overflow : 100 * unit < overflow := by
  unfold unit overflow
  calc 100 * 2 ^ 1074 < 2 ^ 7 * 2 ^ 1074 := Nat.mul_lt_mul_of_pos_right (by norm_num) (by positivity)
    _ = 2 ^ 1081 := by rw [← pow_add]
    _ ≤ 2 ^ 2098 := Nat.pow_le_pow_right (by norm_num) (by norm_num)

theorem isDouble_fin (n : ℤ) (h : (JSNumber.fin n).isDouble = true) :
    Rep n.natAbs ∧ n.natAbs < overflow := by
  simp only [isDouble, Bool.and_eq_true, decide_eq_true_eq] at h
  obtain ⟨hov, hmod⟩ := h
  refine ⟨⟨n.natAbs / 2 ^ spacing n.natAbs 1, spacing n.natAbs 1, ?_, ?_⟩, hov⟩
  · have hbig : n.natAbs < 1 * 2 ^ 4148 := by
      rw [Nat.one_mul]
      exact lt_of_lt_of_le hov (Nat.pow_le_pow_right (by norm_num) (by norm_num))
    have hu := spacing_upper n.natAbs 1 hbig
    rw [Nat.one_mul, pow_add] at hu
    exact (Nat.div_lt_iff_lt_mul (by positivity)).mpr hu
  · exact (Nat.div_mul_cancel (Nat.dvd_of_mod_eq_zero hmod)).symm

theorem difference_chain (a b : Nat) (ha : Rep a) (hb : Rep b) (hlt : b < a) :
    1 ≤ roundMag (a - b) 1 ∧ roundMag (a - b) 1 ≤ a ∧ a ≤ roundMag (a - b) 1 * unit := by
  have h1 : 1 ≤ roundMag (a - b) 1 :=
    le_roundMag (a - b) 1 1 Nat.one_pos rep_one (by omega)
  have h2 : roundMag (a - b) 1 ≤ a :=
    roundMag_le (a - b) 1 a Nat.one_pos ha (by omega)
  refine ⟨h1, h2, ?_⟩
  rcases Nat.lt_or_ge unit a with hbig | hsmall
  · have hgap := rep_gap a b ha hb hlt
    obtain ⟨M, j, hM, rfl⟩ := ha
    have hMpos : 1 ≤ M := by
      rcases Nat.eq_zero_or_pos M with h0 | h0
      · rw [h0, Nat.zero_mul] at hlt; omega
      · exact h0
    have hj : 1074 < 53 + j := by
      have h3 : M * 2 ^ j < 2 ^ 53 * 2 ^ j := Nat.mul_lt_mul_of_pos_right hM (by positivity)
      have h4 : (2 : Nat) ^ 1074 < 2 ^ (53 + j) := by
        rw [pow_add]; unfold unit at hbig; omega
      exact (Nat.pow_lt_pow_iff_right (by norm_num)).mp h4
    have hc : 2 ^ (j - 54) ≤ M * 2 ^ j - b := by
      have h5 : 2 ^ (j - 54) * 2 ^ 54 ≤ (M * 2 ^ j - b) * 2 ^ 54 := by
        calc 2 ^ (j - 54) * 2 ^ 54 = 2 ^ j := by rw [← pow_add]; congr 1; omega
          _ ≤ M * 2 ^ j := Nat.le_mul_of_pos_left _ hMpos
          _ ≤ (M * 2 ^ j - b) * 2 ^ 54 := hgap
      exact Nat.le_of_mul_le_mul_right h5 (by positivity)
    have hd : 2 ^ (j - 54) ≤ roundMag (M * 2 ^ j - b) 1 :=
      le_roundMag _ 1 _ Nat.one_pos (rep_pow _) (by omega)
    calc M * 2 ^ j ≤ 2 ^ 53 * 2 ^ j := Nat.mul_le_mul_right _ (le_of_lt hM)
      _ = 2 ^ (53 + j) := by rw [pow_add]
      _ ≤ 2 ^ (j - 54 + 1074) := Nat.pow_le_pow_right (by norm_num) (by omega)
      _ = 2 ^ (j - 54) * unit := by rw [pow_add]; rfl
      _ ≤ roundMag (M * 2 ^ j - b) 1 * unit := Nat.mul_le_mul_right _ hd
  · calc a ≤ unit := hsmall
      _ = 1 * unit := (Nat.one_mul _).symm
      _ ≤ roundMag (a - b) 1 * unit := Nat.mul_le_mul_right _ h1

theorem quotient_chain (a d : Nat) (ha : 0 < a) (h1 : d ≤ a) (h2 : a ≤ d * unit) :
    1 ≤ roundMag (d * unit) a ∧ roundMag (d * unit) a ≤ unit :=
  ⟨le_roundMag (d * unit) a 1 ha rep_one (by omega),
   roundMag_le (d * unit) a unit ha (rep_pow 1074)
     (by rw [Nat.mul_comm]; exact Nat.mul_le_mul_left _ h1)⟩

theorem product_chain (q : Nat) (h1 : 1 ≤ q) (h2 : q ≤ unit) :
    1 ≤ roundMag (q * (100 * unit)) unit ∧ roundMag (q * (100 * unit)) unit ≤ 100 * unit := by
  constructor
  · apply le_roundMag _ unit 1 unit_pos rep_one
    calc 1 * unit ≤ 100 * unit := Nat.mul_le_mul_right _ (by norm_num)
      _ = 1 * (100 * unit) := (Nat.one_mul _).symm
      _ ≤ q * (100 * unit) := Nat.mul_le_mul_right _ h1
  · apply roundMag_le _ unit (100 * unit) unit_pos ⟨100, 1074, by norm_num, rfl⟩
    calc q * (100 * unit) ≤ unit * (100 * unit) := Nat.mul_le_mul_right _ h2
      _ = 100 * unit * unit := Nat.mul_comm _ _

theorem round_neg_of_lt (p q : Nat) (h : roundMag p q < overflow) :
    JSNumber.round true p q = JSNumber.fin (-(roundMag p q : ℤ)) := by
  simp [JSNumber.round, Nat.not_le.mpr h]

theorem discount_bounds_fin (a b : Nat) (hlt : b < a)
    (ha : (JSNumber.fin a).isDouble = true) (hb : (JSNumber.fin b).isDouble = true) :
    ∃ d k : Nat,
      Product.discountOf (JSNumber.fin b) (JSNumber.fin a) = JSNumber.fin d ∧
      1 ≤ d ∧ d ≤ a ∧
      Product.discountPercentOf (JSNumber.fin b) (JSNumber.fin a) = JSNumber.ofInt k ∧
      1 ≤ k ∧ k ≤ 100 := by
  obtain ⟨hra, hova⟩ := isDouble_fin a ha
  obtain ⟨hrb, _⟩ := isDouble_fin b hb
  simp only [Int.natAbs_ofNat] at hra hrb hova
  obtain ⟨hd1, hd2, hd3⟩ := difference_chain a b hra hrb hlt
  obtain ⟨hq1, hq2⟩ := quotient_chain a (roundMag (a - b) 1) (by omega) hd2 hd3
  obtain ⟨hp1, hp2⟩ := product_chain (roundMag (roundMag (a - b) 1 * unit) a) hq1 hq2
  have hlt' : JSNumber.lt (JSNumber.fin b) (JSNumber.fin a) = true := by
    simp [JSNumber.lt, hlt]
  have hneg : ((b : ℤ) - a < 0) := by omega
  have hnat : ((b : ℤ) - a).natAbs = a - b := by omega
  have hsub : JSNumber.sub (JSNumber.fin b) (JSNumber.fin a)
      = JSNumber.fin (-(roundMag (a - b) 1 : ℤ)) := by
    simp only [JSNumber.sub, hnat, hneg, decide_True]
    exact round_neg_of_lt _ _ (by omega)
  have hdpos : (0 : ℤ) < (roundMag (a - b) 1 : ℤ) := by omega
  have hdiv : JSNumber.div (JSNumber.fin (-(roundMag (a - b) 1 : ℤ))) (JSNumber.fin a)
      = JSNumber.fin (-(roundMag (roundMag (a - b) 1 * unit) a : ℤ)) := by
    have ha0 : (a : ℤ) ≠ 0 := by omega
    have h1 : (-(roundMag (a - b) 1 : ℤ) < 0) := by omega
    have h2 : ¬ ((a : ℤ) < 0) := by omega
    simp only [JSNumber.div, ha0, if_false, h1, h2, decide_True, decide_False, Int.natAbs_neg,
      Int.natAbs_ofNat, Bool.true_bne, Bool.not_false]
    exact round_neg_of_lt _ _ (lt_of_le_of_lt hq2 (by have := unit_lt_overflow; omega))
  have hqpos : (0 : ℤ) < (roundMag (roundMag (a - b) 1 * unit) a : ℤ) := by omega
  have hmul : JSNumber.mul (JSNumber.fin (-(roundMag (roundMag (a - b) 1 * unit) a : ℤ)))
      (JSNumber.ofInt 100)
      = JSNumber.fin (-(roundMag (roundMag (roundMag (a - b) 1 * unit) a * (100 * unit)) unit : ℤ)) := by
    have h1 : (-(roundMag (roundMag (a - b) 1 * unit) a : ℤ) < 0) := by omega
    have h2 : ¬ ((100 : ℤ) * (unit : ℤ) < 0) := not_lt.mpr (by positivity)
    have h3 : ((100 : ℤ) * (unit : ℤ)).natAbs = 100 * unit := by
      rw [Int.natAbs_mul]; simp
    simp only [JSNumber.mul, JSNumber.ofInt, h1, h2, h3, decide_True, decide_False,
      Int.natAbs_neg, Int.natAbs_ofNat, Bool.true_bne, Bool.not_false]
    exact round_neg_of_lt _ _ (lt_of_le_of_lt hp2 unit_lt_overflow)
  refine ⟨roundMag (a - b) 1,
    (roundMag (roundMag (roundMag (a - b) 1 * unit) a * (100 * unit)) unit + (unit - 1)) / unit,
    ?_, hd1, hd2, ?_, ?_, ?_⟩
  · simp [Product.discountOf, hlt', hsub, JSNumber.abs]
  · unfold Product.discountPercentOf
    rw [if_pos hlt', hsub, hdiv, hmul]
    simp [JSNumber.abs, JSNumber.ceil, JSNumber.ofInt]
  · have hu := unit_pos
    exact (Nat.le_div_iff_mul_le hu).mpr (by omega)
  · have hu := unit_pos
    have : (roundMag (roundMag (roundMag (a - b) 1 * unit) a * (100 * unit)) unit + (unit - 1))
        / unit < 101 := (Nat.div_lt_iff_lt_mul hu).mpr (by omega)
    omega

/-! ## Lemmas on the collection interface -/

theorem findOne_idEq_of_mem (c : Collection) (D : ProductDoc) (huniq : UniqueIds c)
    (hD : D ∈ c) : c.findOne (Filter.idEq D._id) = some D := by
  induction c with
  | nil => simp at hD
  | cons a l ih =>
    have hnd : a._id ∉ l.map ProductDoc._id ∧ (l.map ProductDoc._id).Nodup := by
      simpa [UniqueIds] using huniq
    rcases List.mem_cons.mp hD with rfl | hmem
    · simp [Collection.findOne, Filter.holds]
    · have hne : a._id ≠ D._id := by
        intro h
        exact hnd.1 (h ▸ List.mem_map_of_mem ProductDoc._id hmem)
      have := ih hnd.2 hmem
      simpa [Collection.findOne, Filter.holds, hne] using this

theorem findOne_idEq_none (c : Collection) (id : ObjectID)
    (h : ∀ D ∈ c, D._id ≠ id) : c.findOne (Filter.idEq id) = none := by
  simp only [Collection.findOne, List.find?_eq_none]
  intro D hD
  simpa [Filter.holds] using h D hD

theorem insertSorted_perm (le : ProductDoc → ProductDoc → Bool) (a : ProductDoc)
    (l : List ProductDoc) : (insertSorted le a l).Perm (a :: l) := by
  induction l with
  | nil => simp [insertSorted]
  | cons b l ih =>
    unfold insertSorted
    split
    · exact List.Perm.refl _
    · exact ((List.Perm.cons b ih).trans (List.Perm.swap a b l))

theorem sortDocs_perm (le : ProductDoc → ProductDoc → Bool) (l : List ProductDoc) :
    (sortDocs le l).Perm l := by
  induction l with
  | nil => simp [sortDocs]
  | cons a l ih =>
    exact (insertSorted_perm le a (sortDocs le l)).trans (List.Perm.cons a ih)

theorem sortDocs_of_true (le : ProductDoc → ProductDoc → Bool) (hle : ∀ a b, le a b = true)
    (l : List ProductDoc) : sortDocs le l = l := by
  induction l with
  | nil => rfl
  | cons a l ih =>
    rw [sortDocs, ih]
    cases l with
    | nil => rfl
    | cons b l => simp [insertSorted, hle]

theorem findByBrand_none (self : Product) (B : String) :
    self.findByBrand B none = self.collection.filter (fun D => decide (D.brand = B)) := by
  simp only [Product.findByBrand, Cursor.toArray, Cursor.sort, Collection.find, Option.getD_none]
  rw [sortDocs_of_true (sortLe []) (fun _ _ => rfl)]
  rfl

theorem sampleStore_collection :
    sampleStore.collection = [product1, product2, product3, product4] := by
  simp [sampleStore, Product.new]

theorem sampleStore_uniqueIds : UniqueIds sampleStore.collection := by
  rw [sampleStore_collection]
  decide

theorem findByIds_mem (self : Product) (S : List ObjectID) (D : ProductDoc) :
    D ∈ self.findByIds S ↔ D ∈ self.collection ∧ D._id ∈ S := by
  simp [Product.findByIds, Cursor.toArray, Collection.find, Filter.holds]

/-! ## The lookups -/

/-- C6: in a store with unique document ids, `findById` of the id of a stored
document returns that document, and `findById` of an identifier that no stored
document has returns the absent result `none` (JavaScript `null`); the result is
a value in both cases, never a failure. -/
theorem findById_spec (self : Product) (huniq : UniqueIds self.collection) :
    (∀ D ∈ self.collection, self.findById D._id = some D) ∧
    (∀ id : ObjectID, (∀ D ∈ self.collection, D._id ≠ id) → self.findById id = none) :=
  ⟨fun D hD => findOne_idEq_of_mem self.collection D huniq hD,
   fun id h => findOne_idEq_none self.collection id h⟩

/-- The test-suite's two `findById` cases: the second sample product is found by
its id, an identifier that was never inserted gives `none`. -/
theorem findById_spec_witness :
    UniqueIds sampleStore.collection ∧
    sampleStore.findById product2._id = some product2 ∧
    sampleStore.findById (sampleId 9) = none :=
  ⟨sampleStore_uniqueIds,
   (findById_spec sampleStore sampleStore_uniqueIds).1 product2
     (by rw [sampleStore_collection]; simp),
   (findById_spec sampleStore sampleStore_uniqueIds).2 (sampleId 9)
     (by rw [sampleStore_collection]; decide)⟩

/-- C5: in a store with unique document ids, for every sequence `S` of
identifiers, `findByIds S` holds exactly the stored documents whose id occurs in
`S`, in storage order, each at most once (no two results share an id, whatever
the repetitions in `S`), and it is empty when `S` is empty or when no id of `S`
is stored. -/
theorem findByIds_spec (self : Product) (S : List ObjectID)
    (huniq : UniqueIds self.collection) :
    (∀ D, D ∈ self.findByIds S ↔ D ∈ self.collection ∧ D._id ∈ S) ∧
    (self.findByIds S).Sublist self.collection ∧
    ((self.findByIds S).map ProductDoc._id).Nodup ∧
    (self.findByIds S).Nodup ∧
    (S = [] → self.findByIds S = []) ∧
    ((∀ i ∈ S, ∀ D ∈ self.collection, D._id ≠ i) → self.findByIds S = []) := by
  have hsub : (self.findByIds S).Sublist self.collection := List.filter_sublist _
  have hids : ((self.findByIds S).map ProductDoc._id).Nodup :=
    List.Nodup.sublist (hsub.map ProductDoc._id) huniq
  refine ⟨fun D => ?_, hsub, hids, List.Nodup.of_map _ hids, ?_, ?_⟩
  · simp [Product.findByIds, Cursor.toArray, Collection.find, Filter.holds]
  · rintro rfl
    simp [Product.findByIds, Cursor.toArray, Collection.find, Filter.holds]
  · intro h
    simp only [Product.findByIds, Cursor.toArray, Collection.find, List.filter_eq_nil_iff]
    intro D hD
    simp only [Filter.holds, decide_eq_true_eq]
    exact fun hmem => h D._id hmem D hD rfl

/-- The test-suite's `findByIds` cases on the sample store, with a repeated and an
unknown identifier added: the first and third products come back once each. -/
theorem findByIds_spec_witness :
    UniqueIds sampleStore.collection ∧
    sampleStore.findByIds [sampleId 3, sampleId 1, sampleId 3, sampleId 9]
      = [product1, product3] ∧
    sampleStore.findByIds [sampleId 9] = [] :=
  ⟨sampleStore_uniqueIds, by rfl,
   (findByIds_spec sampleStore [sampleId 9] sampleStore_uniqueIds).2.2.2.2.2
     (by rw [sampleStore_collection]; decide)⟩

/-- C7: `findByBrand B` without a sort is exactly the stored documents whose brand
equals `B`, compared as strings (so case matters), and is empty when there is
none; with any sort specification the result is a permutation of the unsorted
one.  On the sample store: brand `Bernina` gives the first and third products, the
lower-case `bernina` gives nothing, and sorting by ascending `salePrice` puts the
third product first. -/
theorem findByBrand_spec (self : Product) (B : String) (sort : MongoSort) :
    self.findByBrand B none = self.collection.filter (fun D => decide (D.brand = B)) ∧
    (∀ D, D ∈ self.findByBrand B none ↔ D ∈ self.collection ∧ D.brand = B) ∧
    ((∀ D ∈ self.collection, D.brand ≠ B) ↔ self.findByBrand B none = []) ∧
    (self.findByBrand B (some sort)).Perm (self.findByBrand B none) ∧
    (∀ D, D ∈ self.findByBrand B (some sort) ↔ D ∈ self.collection ∧ D.brand = B) ∧
    sampleStore.findByBrand "Bernina" none = [product1, product3] ∧
    sampleStore.findByBrand "bernina" none = [] ∧
    sampleStore.findByBrand "Bernina" (some [("salePrice", SortDirection.asc)])
      = [product3, product1] := by
  have hnone := findByBrand_none self B
  have hperm : (self.findByBrand B (some sort)).Perm (self.findByBrand B none) := by
    rw [hnone]
    exact sortDocs_perm _ _
  have hmem : ∀ D, D ∈ self.findByBrand B none ↔ D ∈ self.collection ∧ D.brand = B := by
    intro D
    rw [hnone]
    simp
  refine ⟨hnone, hmem, ?_, hperm, fun D => (hperm.mem_iff).trans (hmem D), by rfl, by rfl, ?_⟩
  · rw [hnone, List.filter_eq_nil_iff]
    simp
  · decide

/-! ## `serialize` -/

theorem serialize_of_mem (self : Product) (P : ProductDoc)
    (huniq : UniqueIds self.collection) (hP : P ∈ self.collection) :
    self.serialize P._id = Except.ok
      { id := P._id.toString
        model := P.modelNum
        sku := P.brand ++ "-" ++ P.modelNum
        title := P.name
        brandName := P.brand
        price := P.salePrice
        listPrice := P.msrp
        discount := Product.discountOf P.salePrice.val (toNumber P.msrp)
        discountPercent :=
          Product.discountPercentOf P.salePrice.val (toNumber P.msrp)
        relatedProducts := (self.findByIds P.relatedProducts).map Product.relatedView } := by
  have h : self.findById P._id = some P := findOne_idEq_of_mem self.collection P huniq hP
  simp [Product.serialize, h]

theorem product4_mem : product4 ∈ sampleStore.collection := by
  rw [sampleStore_collection]; simp

theorem product1_mem : product1 ∈ sampleStore.collection := by
  rw [sampleStore_collection]; simp

theorem product2_mem : product2 ∈ sampleStore.collection := by
  rw [sampleStore_collection]; simp

theorem lt_false_of_le (s m : JSNumber) (h : JSNumber.le m s = true) :
    JSNumber.lt s m = false := by
  cases s <;> cases m <;> simp_all [JSNumber.le, JSNumber.lt]

theorem discount_zero_of_not_lt (s : JSNumber) (msrp : Option Double)
    (h : msrp = none ∨ ∃ m, msrp = some m ∧ JSNumber.le m.val s = true) :
    Product.discountOf s (toNumber msrp) = JSNumber.fin 0 ∧
    Product.discountPercentOf s (toNumber msrp) = JSNumber.fin 0 := by
  have hlt : JSNumber.lt s (toNumber msrp) = false := by
    rcases h with rfl | ⟨m, rfl, hle⟩
    · cases s <;> rfl
    · exact lt_false_of_le s m.val hle
  simp [Product.discountOf, Product.discountPercentOf, hlt]

/-- C3: for every stored product `P`, `serialize` returns a view whose `sku` is
`P.brand`, one hyphen, `P.modelNum`; for the fourth sample product that is
`Brother-NQ3600D`. -/
theorem serialize_sku (self : Product) (P : ProductDoc)
    (huniq : UniqueIds self.collection) (hP : P ∈ self.collection) :
    (∃ v, self.serialize P._id = Except.ok v ∧ v.sku = P.brand ++ "-" ++ P.modelNum) ∧
    (∃ v, sampleStore.serialize product4._id = Except.ok v ∧ v.sku = "Brother-NQ3600D") :=
  ⟨⟨_, serialize_of_mem self P huniq hP, rfl⟩,
   ⟨_, serialize_of_mem sampleStore product4 sampleStore_uniqueIds product4_mem, by rfl⟩⟩

/-- The sku of the first sample product, brand `Bernina` and model `B880`. -/
theorem serialize_sku_witness :
    UniqueIds sampleStore.collection ∧ product1 ∈ sampleStore.collection ∧
    ∃ v, sampleStore.serialize product1._id = Except.ok v ∧ v.sku = "Bernina-B880" :=
  ⟨sampleStore_uniqueIds, product1_mem,
   (serialize_sku sampleStore product1 sampleStore_uniqueIds product1_mem).1⟩

/-- C9: for every stored product `P`, the view `serialize` returns copies the
stored fields: `id` is the string form of `P._id`, `model` is `P.modelNum`,
`title` is `P.name`, `brandName` is `P.brand`, `price` is `P.salePrice` and
`listPrice` is `P.msrp`, absent exactly when `msrp` is absent. -/
theorem serialize_fields (self : Product) (P : ProductDoc)
    (huniq : UniqueIds self.collection) (hP : P ∈ self.collection) :
    ∃ v, self.serialize P._id = Except.ok v ∧
      v.id = P._id.toString ∧ v.model = P.modelNum ∧ v.title = P.name ∧
      v.brandName = P.brand ∧ v.price = P.salePrice ∧ v.listPrice = P.msrp ∧
      (v.listPrice = none ↔ P.msrp = none) :=
  ⟨_, serialize_of_mem self P huniq hP, rfl, rfl, rfl, rfl, rfl, rfl, Iff.rfl⟩

/-- The shape test of the test-suite on the fourth sample product, and the absent
list price of the second. -/
theorem serialize_fields_witness :
    UniqueIds sampleStore.collection ∧ product4 ∈ sampleStore.collection ∧
    (∃ v, sampleStore.serialize product4._id = Except.ok v ∧
      v.id = "000000000000000000000004" ∧ v.model = "NQ3600D" ∧
      v.title = "Sewing & Embroidery Machine" ∧ v.brandName = "Brother" ∧
      v.price.val = JSNumber.lit 21999 100 ∧
      v.listPrice.map Subtype.val = some (JSNumber.lit 24999 100)) ∧
    (∃ v, sampleStore.serialize product2._id = Except.ok v ∧ v.listPrice = none) := by
  refine ⟨sampleStore_uniqueIds, product4_mem, ?_, ?_⟩
  · obtain ⟨v, hv, h1, h2, h3, h4, h5, h6, _⟩ :=
      serialize_fields sampleStore product4 sampleStore_uniqueIds product4_mem
    exact ⟨v, hv, h1.trans (by rfl), h2, h3, h4, by rw [h5]; rfl, by rw [h6]; rfl⟩
  · obtain ⟨v, hv, _, _, _, _, _, h6, _⟩ :=
      serialize_fields sampleStore product2 sampleStore_uniqueIds product2_mem
    exact ⟨v, hv, h6⟩

/-- C4: for every stored product `P`, the `relatedProducts` of the view is the
result of `findByIds P.relatedProducts` mapped, document by document, to its id
string, name and brand: same length, same order position by position; every
entry comes from a stored document whose id is listed in `P.relatedProducts`, so
an identifier that matches no stored document contributes nothing, and there are
at most as many entries as identifiers.  For the fourth sample product the
entries are those of the first and third products. -/
theorem serialize_relatedProducts (self : Product) (P : ProductDoc)
    (huniq : UniqueIds self.collection) (hP : P ∈ self.collection) :
    (∃ v, self.serialize P._id = Except.ok v ∧
      v.relatedProducts = (self.findByIds P.relatedProducts).map
        (fun R => { id := R._id.toString, title := R.name, brandName := R.brand }) ∧
      v.relatedProducts.length = (self.findByIds P.relatedProducts).length ∧
      (∀ i : Nat, v.relatedProducts[i]? =
        ((self.findByIds P.relatedProducts)[i]?).map Product.relatedView) ∧
      (∀ e ∈ v.relatedProducts, ∃ R ∈ self.collection,
        R._id ∈ P.relatedProducts ∧ e = Product.relatedView R) ∧
      ((∀ i ∈ P.relatedProducts, ∀ D ∈ self.collection, D._id ≠ i) →
        v.relatedProducts = []) ∧
      v.relatedProducts.length ≤ P.relatedProducts.length) ∧
    (∃ v, sampleStore.serialize product4._id = Except.ok v ∧
      v.relatedProducts =
        [{ id := "000000000000000000000001", title := "PLUS Sewing Quilting Machine",
           brandName := "Bernina" },
         { id := "000000000000000000000003", title := "L460 Overlocker",
           brandName := "Bernina" }]) := by
  constructor
  · refine ⟨_, serialize_of_mem self P huniq hP, rfl, ?_, ?_, ?_, ?_, ?_⟩
    · simp
    · intro i
      simp
    · intro e he
      obtain ⟨R, hR, rfl⟩ := List.mem_map.mp he
      have := (findByIds_mem self P.relatedProducts R).mp hR
      exact ⟨R, this.1, this.2, rfl⟩
    · intro h
      have : self.findByIds P.relatedProducts = [] := by
        simp only [Product.findByIds, Cursor.toArray, Collection.find, List.filter_eq_nil_iff]
        intro D hD
        simp only [Filter.holds, decide_eq_true_eq]
        exact fun hmem => h D._id hmem D hD rfl
      simp [this]
    · have hsub : (self.findByIds P.relatedProducts).Sublist self.collection :=
        List.filter_sublist _
      have hnd : ((self.findByIds P.relatedProducts).map ProductDoc._id).Nodup :=
        List.Nodup.sublist (hsub.map ProductDoc._id) huniq
      have hss : (self.findByIds P.relatedProducts).map ProductDoc._id ⊆ P.relatedProducts := by
        intro i hi
        obtain ⟨R, hR, rfl⟩ := List.mem_map.mp hi
        exact ((findByIds_mem self P.relatedProducts R).mp hR).2
      have := (List.subperm_of_subset hnd hss).length_le
      simpa using this
  · exact ⟨_, serialize_of_mem sampleStore product4 sampleStore_uniqueIds product4_mem, by rfl⟩

/-- The related products of the first sample product, which lists none, are empty. -/
theorem serialize_relatedProducts_witness :
    UniqueIds sampleStore.collection ∧ product1 ∈ sampleStore.collection ∧
    ∃ v, sampleStore.serialize product1._id = Except.ok v ∧ v.relatedProducts = [] := by
  obtain ⟨v, hv, _, _, _, _, hnil, _⟩ :=
    (serialize_relatedProducts sampleStore product1 sampleStore_uniqueIds product1_mem).1
  exact ⟨sampleStore_uniqueIds, product1_mem, v, hv,
    hnil (fun i hi => by simp [product1] at hi)⟩

/-- C8, the claim as stated fails: for an identifier that no stored document has,
`serialize` fails with the `TypeError` of reading `relatedProducts` on `null`, which
is not the NotFound condition. -/
theorem serialize_missing_is_typeError :
    (∀ D ∈ sampleStore.collection, D._id ≠ sampleId 9) ∧
    sampleStore.serialize (sampleId 9) = Except.error Failure.typeError ∧
    sampleStore.serialize (sampleId 9) ≠ Except.error Failure.notFound := by
  have hmiss : ∀ D ∈ sampleStore.collection, D._id ≠ sampleId 9 := by
    rw [sampleStore_collection]; decide
  have h : sampleStore.serialize (sampleId 9) = Except.error Failure.typeError := by
    simp [Product.serialize, Product.findById, findOne_idEq_none _ _ hmiss]
  refine ⟨hmiss, h, ?_⟩
  rw [h]
  intro hc
  cases hc

/-- C8, amended: for every store and every identifier that no stored document
has, `serialize` returns no view and fails with the `TypeError` of the null
dereference (never with a NotFound error); for every identifier of a stored
product, `serialize` succeeds and returns a view. -/
theorem serialize_outcome (self : Product) (id : ObjectID) :
    ((∀ D ∈ self.collection, D._id ≠ id) →
      self.serialize id = Except.error Failure.typeError ∧
      self.serialize id ≠ Except.error Failure.notFound ∧
      ∀ v, self.serialize id ≠ Except.ok v) ∧
    ((∃ D ∈ self.collection, D._id = id) → ∃ v, self.serialize id = Except.ok v) := by
  constructor
  · intro hmiss
    have h : self.serialize id = Except.error Failure.typeError := by
      simp [Product.serialize, Product.findById, findOne_idEq_none _ _ hmiss]
    rw [h]
    refine ⟨rfl, ?_, ?_⟩
    · intro hc
      cases hc
    · intro v hc
      cases hc
  · rintro ⟨D, hD, rfl⟩
    cases hf : self.findById D._id with
    | none =>
      have := List.find?_eq_none.mp hf D hD
      simp [Filter.holds] at this
    | some Q =>
      simp only [Product.serialize, hf]
      exact ⟨_, rfl⟩

theorem roundingStore_collection :
    roundingStore.collection = [roundingDoc, absorbedDoc, infiniteDoc] := rfl

theorem roundingStore_uniqueIds : UniqueIds roundingStore.collection := by
  rw [roundingStore_collection]; decide

theorem negativeStore_collection : negativeStore.collection = [negativeDoc] := rfl

/-- C2: for every stored product whose `msrp` is absent, or whose `salePrice` is
greater than or equal to its `msrp` (JavaScript `>=`), `serialize` returns
`discount = 0` and `discountPercent = 0`; so it does for the first sample product
(349.99 against an msrp of 329.99) and for the second (79.99, no msrp). -/
theorem serialize_no_discount (self : Product) (P : ProductDoc)
    (huniq : UniqueIds self.collection) (hP : P ∈ self.collection)
    (h : P.msrp = none ∨ ∃ m, P.msrp = some m ∧ JSNumber.le m.val P.salePrice.val = true) :
    (∃ v, self.serialize P._id = Except.ok v ∧
      v.discount = JSNumber.fin 0 ∧ v.discountPercent = JSNumber.fin 0) ∧
    (product1.salePrice.val = JSNumber.lit 34999 100 ∧
      product1.msrp.map Subtype.val = some (JSNumber.lit 32999 100) ∧
      ∃ v, sampleStore.serialize product1._id = Except.ok v ∧
        v.discount = JSNumber.fin 0 ∧ v.discountPercent = JSNumber.fin 0) ∧
    (product2.salePrice.val = JSNumber.lit 7999 100 ∧ product2.msrp = none ∧
      ∃ v, sampleStore.serialize product2._id = Except.ok v ∧
        v.discount = JSNumber.fin 0 ∧ v.discountPercent = JSNumber.fin 0) := by
  have key : ∀ (st : Product) (Q : ProductDoc), UniqueIds st.collection → Q ∈ st.collection →
      (Q.msrp = none ∨ ∃ m, Q.msrp = some m ∧ JSNumber.le m.val Q.salePrice.val = true) →
      ∃ v, st.serialize Q._id = Except.ok v ∧
        v.discount = JSNumber.fin 0 ∧ v.discountPercent = JSNumber.fin 0 := by
    intro st Q hu hQ hQ2
    have hz := discount_zero_of_not_lt Q.salePrice.val Q.msrp hQ2
    exact ⟨_, serialize_of_mem st Q hu hQ, hz.1, hz.2⟩
  refine ⟨key self P huniq hP h, ⟨rfl, rfl, ?_⟩, ⟨rfl, rfl, ?_⟩⟩
  · exact key sampleStore product1 sampleStore_uniqueIds product1_mem
      (Or.inr ⟨_, rfl, by decide⟩)
  · exact key sampleStore product2 sampleStore_uniqueIds product2_mem (Or.inl rfl)

/-- The first sample product, priced above its msrp, has no discount. -/
theorem serialize_no_discount_witness :
    UniqueIds sampleStore.collection ∧ product1 ∈ sampleStore.collection ∧
    (product1.msrp = none ∨
      ∃ m, product1.msrp = some m ∧ JSNumber.le m.val product1.salePrice.val = true) ∧
    ∃ v, sampleStore.serialize product1._id = Except.ok v ∧
      v.discount = JSNumber.fin 0 ∧ v.discountPercent = JSNumber.fin 0 :=
  have h : product1.msrp = none ∨
      ∃ m, product1.msrp = some m ∧ JSNumber.le m.val product1.salePrice.val = true :=
    Or.inr ⟨_, rfl, by decide⟩
  ⟨sampleStore_uniqueIds, product1_mem, h,
   (serialize_no_discount sampleStore product1 sampleStore_uniqueIds product1_mem h).1⟩

/-- C1, the claim as stated fails in three ways.  With `salePrice = -3` and
`msrp = -2`, `serialize` returns `discountPercent = 50` where
`ceiling(|salePrice - msrp| / msrp * 100)` is `-50`.  With `salePrice = 93` and
`msrp = 100`, the double quotient `-7 / 100` times 100 is just below `-7` and
`serialize` returns `discountPercent = 8` where the exact formula gives 7.  With
`salePrice = 0.1` and `msrp = 2 ^ 53`, `serialize` returns `discount = msrp`, which
is not the exact difference. -/
theorem serialize_discount_not_exact :
    (negativeDoc.salePrice.val = JSNumber.ofInt (-3) ∧
      negativeDoc.msrp.map Subtype.val = some (JSNumber.ofInt (-2)) ∧
      JSNumber.lt (JSNumber.ofInt (-3)) (JSNumber.ofInt (-2)) = true ∧
      (⌈|(-3 : ℚ) - (-2)| / (-2) * 100⌉ : ℤ) = -50 ∧
      ∃ v, negativeStore.serialize negativeDoc._id = Except.ok v ∧
        v.discountPercent = JSNumber.ofInt 50 ∧ v.discountPercent ≠ JSNumber.ofInt (-50)) ∧
    (roundingDoc.salePrice.val = JSNumber.ofInt 93 ∧
      roundingDoc.msrp.map Subtype.val = some (JSNumber.ofInt 100) ∧
      JSNumber.lt (JSNumber.ofInt 93) (JSNumber.ofInt 100) = true ∧
      (⌈|(93 : ℚ) - 100| / 100 * 100⌉ : ℤ) = 7 ∧
      ∃ v, roundingStore.serialize roundingDoc._id = Except.ok v ∧
        v.discountPercent = JSNumber.ofInt 8 ∧ v.discountPercent ≠ JSNumber.ofInt 7) ∧
    (∃ a b : ℤ, absorbedDoc.salePrice.val = JSNumber.fin b ∧
      absorbedDoc.msrp.map Subtype.val = some (JSNumber.fin a) ∧ 0 < b ∧ b < a ∧
      ∃ v, roundingStore.serialize absorbedDoc._id = Except.ok v ∧
        v.discount = JSNumber.fin a ∧ v.discount ≠ JSNumber.fin |b - a|) := by
  have hneg : (⌈|(-3 : ℚ) - (-2)| / (-2) * 100⌉ : ℤ) = -50 := by
    rw [Int.ceil_eq_iff]; norm_num
  have hrnd : (⌈|(93 : ℚ) - 100| / 100 * 100⌉ : ℤ) = 7 := by
    rw [Int.ceil_eq_iff]; norm_num
  have hnu : UniqueIds negativeStore.collection := by
    rw [negativeStore_collection]; decide
  have hnm : negativeDoc ∈ negativeStore.collection := by
    rw [negativeStore_collection]; simp
  have hrm : roundingDoc ∈ roundingStore.collection := by
    rw [roundingStore_collection]; simp
  have ham : absorbedDoc ∈ roundingStore.collection := by
    rw [roundingStore_collection]; simp
  refine ⟨⟨rfl, rfl, by decide, hneg, _, serialize_of_mem negativeStore negativeDoc hnu hnm,
      by decide, by decide⟩,
    ⟨rfl, rfl, by decide, hrnd, _,
      serialize_of_mem roundingStore roundingDoc roundingStore_uniqueIds hrm,
      by decide, by decide⟩,
    ⟨(9007199254740992 * JSNumber.unit : ℤ), (roundMag (1 * JSNumber.unit) 10 : ℤ),
      by decide, by decide, by decide, by decide, _,
      serialize_of_mem roundingStore absorbedDoc roundingStore_uniqueIds ham,
      by decide, by decide⟩⟩

theorem sub_exact (a b : ℤ) (hlt : b < a) (hd : (JSNumber.fin (a - b)).isDouble = true) :
    JSNumber.abs (JSNumber.sub (JSNumber.fin b) (JSNumber.fin a)) = JSNumber.fin (a - b) := by
  obtain ⟨hrep, hov⟩ := isDouble_fin (a - b) hd
  have hnat : (b - a).natAbs = (a - b).natAbs := by omega
  have hneg : b - a < 0 := by omega
  have hround : roundMag (a - b).natAbs 1 = (a - b).natAbs := roundMag_rep _ hrep
  simp only [JSNumber.sub, hnat, hneg, decide_True]
  rw [round_neg_of_lt _ _ (by rw [hround]; exact hov), hround]
  simp only [JSNumber.abs, Int.natAbs_neg, Int.natAbs_ofNat]
  congr 1
  omega

/-- C1, amended: for every stored product whose `msrp` is present and whose
`salePrice` is less than it, `serialize` returns `discount = |salePrice - msrp|`
and `discountPercent = ceiling(|((salePrice - msrp) / msrp) * 100|)` where the
subtraction, the division and the multiplication are those of IEEE-754 doubles,
each rounding its exact result to the nearest double, and the absolute value is
taken of the whole product.  The discount is the exact difference whenever that
difference is a double.  For `salePrice = 219.99` and `msrp = 249.99` the discount
is 30 and the percentage 13. -/
theorem serialize_discount (self : Product) (P : ProductDoc) (m : Double)
    (huniq : UniqueIds self.collection) (hP : P ∈ self.collection)
    (hm : P.msrp = some m) (hlt : JSNumber.lt P.salePrice.val m.val = true) :
    (∃ v, self.serialize P._id = Except.ok v ∧
      v.discount = JSNumber.abs (JSNumber.sub P.salePrice.val m.val) ∧
      v.discountPercent = JSNumber.ceil (JSNumber.abs (JSNumber.mul
        (JSNumber.div (JSNumber.sub P.salePrice.val m.val) m.val) (JSNumber.ofInt 100))) ∧
      (∀ a b : ℤ, P.salePrice.val = JSNumber.fin b → m.val = JSNumber.fin a →
        (JSNumber.fin (a - b)).isDouble = true → v.discount = JSNumber.fin (a - b))) ∧
    (product4.salePrice.val = JSNumber.lit 21999 100 ∧
      product4.msrp.map Subtype.val = some (JSNumber.lit 24999 100) ∧
      ∃ v, sampleStore.serialize product4._id = Except.ok v ∧
        v.discount = JSNumber.ofInt 30 ∧ v.discountPercent = JSNumber.ofInt 13) := by
  have hd : Product.discountOf P.salePrice.val (toNumber P.msrp)
      = JSNumber.abs (JSNumber.sub P.salePrice.val m.val) := by
    simp [Product.discountOf, hm, toNumber, hlt]
  have hp : Product.discountPercentOf P.salePrice.val (toNumber P.msrp)
      = JSNumber.ceil (JSNumber.abs (JSNumber.mul
        (JSNumber.div (JSNumber.sub P.salePrice.val m.val) m.val) (JSNumber.ofInt 100))) := by
    simp [Product.discountPercentOf, hm, toNumber, hlt]
  refine ⟨⟨_, serialize_of_mem self P huniq hP, hd, hp, ?_⟩, rfl, rfl, _,
    serialize_of_mem sampleStore product4 sampleStore_uniqueIds product4_mem,
    by decide, by decide⟩
  intro a b hb ha hdbl
  have hba : b < a := by
    rw [hb, ha] at hlt
    simpa [JSNumber.lt] using hlt
  show Product.discountOf P.salePrice.val (toNumber P.msrp) = JSNumber.fin (a - b)
  rw [hd, hb, ha]
  exact sub_exact a b hba hdbl

/-- The amended C1 at the first product of the rounding store: 93 under an msrp of
100 gives the exact discount 7 and the percentage 8. -/
theorem serialize_discount_witness :
    UniqueIds roundingStore.collection ∧ roundingDoc ∈ roundingStore.collection ∧
    roundingDoc.msrp = some ⟨JSNumber.ofInt 100, by decide⟩ ∧
    JSNumber.lt roundingDoc.salePrice.val (JSNumber.ofInt 100) = true ∧
    ∃ v, roundingStore.serialize roundingDoc._id = Except.ok v ∧
      v.discount = JSNumber.ofInt 7 ∧ v.discountPercent = JSNumber.ofInt 8 := by
  have hmem : roundingDoc ∈ roundingStore.collection := by
    rw [roundingStore_collection]; simp
  obtain ⟨v, hv, hd, hp, _⟩ :=
    (serialize_discount roundingStore roundingDoc ⟨JSNumber.ofInt 100, by decide⟩
      roundingStore_uniqueIds hmem rfl (by decide)).1
  exact ⟨roundingStore_uniqueIds, hmem, rfl, by decide, v, hv,
    hd.trans (by decide), hp.trans (by decide)⟩

/-- C10, the claim as stated fails for an infinite `msrp`: with `salePrice = 5` and
a stored `msrp` of `Infinity`, `0 <= salePrice < msrp` holds and `serialize`
returns `discount = Infinity` and `discountPercent = NaN`, no whole number from 1
to 100. -/
theorem serialize_discountPercent_infinite_msrp :
    infiniteDoc.salePrice.val = JSNumber.ofInt 5 ∧
    infiniteDoc.msrp.map Subtype.val = some JSNumber.posInf ∧
    JSNumber.le (JSNumber.ofInt 0) (JSNumber.ofInt 5) = true ∧
    JSNumber.lt (JSNumber.ofInt 5) JSNumber.posInf = true ∧
    ∃ v, roundingStore.serialize infiniteDoc._id = Except.ok v ∧
      v.discount = JSNumber.posInf ∧ v.discountPercent = JSNumber.nan ∧
      ¬ ∃ k : ℤ, v.discountPercent = JSNumber.ofInt k ∧ 1 ≤ k ∧ k ≤ 100 := by
  have hmem : infiniteDoc ∈ roundingStore.collection := by
    rw [roundingStore_collection]; simp
  refine ⟨rfl, rfl, by decide, by decide, _,
    serialize_of_mem roundingStore infiniteDoc roundingStore_uniqueIds hmem,
    by decide, by decide, ?_⟩
  rintro ⟨k, hk, _, _⟩
  have hnan : Product.discountPercentOf infiniteDoc.salePrice.val (toNumber infiniteDoc.msrp)
      = JSNumber.nan := by decide
  have hk' : Product.discountPercentOf infiniteDoc.salePrice.val (toNumber infiniteDoc.msrp)
      = JSNumber.ofInt k := hk
  rw [hnan] at hk'
  simp [JSNumber.ofInt] at hk'

/-- C10, amended: for every stored product with `0 <= salePrice < msrp` and a
finite `msrp`, the `discountPercent` that `serialize` returns is a whole number
from 1 to 100, the `discount` is a finite number with `0 < discount <= msrp`, and
so the one is non-zero exactly when the other is. -/
theorem serialize_discount_bounds (self : Product) (P : ProductDoc) (m : Double)
    (huniq : UniqueIds self.collection) (hP : P ∈ self.collection)
    (hm : P.msrp = some m) (hfin : m.val.isFinite = true)
    (h0 : JSNumber.le (JSNumber.ofInt 0) P.salePrice.val = true)
    (hlt : JSNumber.lt P.salePrice.val m.val = true) :
    ∃ v, self.serialize P._id = Except.ok v ∧
      (∃ k : ℤ, v.discountPercent = JSNumber.ofInt k ∧ 1 ≤ k ∧ k ≤ 100) ∧
      (v.discount.isFinite = true ∧ JSNumber.lt (JSNumber.ofInt 0) v.discount = true ∧
        JSNumber.le v.discount m.val = true) ∧
      (v.discount ≠ JSNumber.fin 0 ↔ v.discountPercent ≠ JSNumber.fin 0) := by
  rcases m with ⟨mv, hmd⟩
  rcases hs : P.salePrice with ⟨sv, hsd⟩
  rw [hs] at h0 hlt
  simp only at hfin h0 hlt
  cases mv with
  | posInf => simp [JSNumber.isFinite] at hfin
  | negInf => simp [JSNumber.isFinite] at hfin
  | nan => simp [JSNumber.isFinite] at hfin
  | fin a =>
    cases sv with
    | posInf => simp [JSNumber.lt] at hlt
    | negInf => simp [JSNumber.le, JSNumber.ofInt] at h0
    | nan => simp [JSNumber.le, JSNumber.ofInt] at h0
    | fin b =>
      have hb0 : 0 ≤ b := by simpa [JSNumber.le, JSNumber.ofInt] using h0
      have hba : b < a := by simpa [JSNumber.lt] using hlt
      lift b to ℕ using hb0
      lift a to ℕ using (by omega)
      obtain ⟨d, k, hd, hd1, hd2, hk, hk1, hk2⟩ :=
        discount_bounds_fin a b (by omega) hmd hsd
      have hdv : Product.discountOf P.salePrice.val (toNumber P.msrp) = JSNumber.fin d := by
        rw [hm, hs]; exact hd
      have hkv : Product.discountPercentOf P.salePrice.val (toNumber P.msrp)
          = JSNumber.ofInt k := by
        rw [hm, hs]; exact hk
      have hdne : Product.discountOf P.salePrice.val (toNumber P.msrp) ≠ JSNumber.fin 0 := by
        rw [hdv]
        intro h
        have : (d : ℤ) = 0 := JSNumber.fin.inj h
        omega
      have hkne : Product.discountPercentOf P.salePrice.val (toNumber P.msrp)
          ≠ JSNumber.fin 0 := by
        rw [hkv]
        intro h
        have h1 : ((k : ℤ)) * (JSNumber.unit : ℤ) = 0 := JSNumber.fin.inj h
        have hu := unit_pos
        rcases mul_eq_zero.mp h1 with h2 | h2 <;> omega
      refine ⟨_, serialize_of_mem self P huniq hP, ⟨k, hkv, by omega, by omega⟩, ⟨?_, ?_, ?_⟩,
        fun _ => hkne, fun _ => hdne⟩
      · show (Product.discountOf P.salePrice.val (toNumber P.msrp)).isFinite = true
        rw [hdv]; rfl
      · show JSNumber.lt (JSNumber.ofInt 0)
          (Product.discountOf P.salePrice.val (toNumber P.msrp)) = true
        rw [hdv]
        simp only [JSNumber.lt, JSNumber.ofInt, decide_eq_true_eq]
        omega
      · show JSNumber.le (Product.discountOf P.salePrice.val (toNumber P.msrp)) _ = true
        rw [hdv]
        simp only [JSNumber.le, decide_eq_true_eq]
        omega

/-- The bounds at the fourth sample product: `0 <= 219.99 < 249.99`. -/
theorem serialize_discount_bounds_witness :
    UniqueIds sampleStore.collection ∧ product4 ∈ sampleStore.collection ∧
    product4.msrp = some ⟨JSNumber.lit 24999 100, by decide⟩ ∧
    (JSNumber.lit 24999 100).isFinite = true ∧
    JSNumber.le (JSNumber.ofInt 0) product4.salePrice.val = true ∧
    JSNumber.lt product4.salePrice.val (JSNumber.lit 24999 100) = true ∧
    ∃ v, sampleStore.serialize product4._id = Except.ok v ∧
      (∃ k : ℤ, v.discountPercent = JSNumber.ofInt k ∧ 1 ≤ k ∧ k ≤ 100) ∧
      (v.discount.isFinite = true ∧ JSNumber.lt (JSNumber.ofInt 0) v.discount = true ∧
        JSNumber.le v.discount (JSNumber.lit 24999 100) = true) ∧
      (v.discount ≠ JSNumber.fin 0 ↔ v.discountPercent ≠ JSNumber.fin 0) :=
  ⟨sampleStore_uniqueIds, product4_mem, rfl, by decide, by decide, by decide,
   serialize_discount_bounds sampleStore product4 ⟨JSNumber.lit 24999 100, by decide⟩
     sampleStore_uniqueIds product4_mem rfl (by decide) (by decide) (by decide)⟩

end MongoDbTesting
